import Mathlib

/-!
Shallow embedding of pardnchiu/golang-redis-fallback.

The Go package keeps three storage tiers: an in-process memory map
(sync.Map), a remote Redis store, and a local on-disk JSON store. The
embedding models the process state as association lists keyed by the cache
key (the path derivation of unit.go is deterministic and injective per key,
so files are identified by their key), models the Redis client and the file
system as a deterministic environment oracle, and records every remote call
in an explicit operation trace. Machine integers (int64 Unix seconds, TTL
seconds) are modelled as Int; the values are far from overflow in every
claim considered.
-/

namespace RedisFallback

/-- JSON values, modelling the Go interface values carried in the Data
field of a record and the output shape of encoding/json. -/
inductive JsonValue where
  | null : JsonValue
  | bool : Bool → JsonValue
  | num : Int → JsonValue
  | str : String → JsonValue
  | arr : List JsonValue → JsonValue
  | obj : List (String × JsonValue) → JsonValue

/-- Escape of one character inside a JSON string literal, as produced by
encoding/json for the quote and backslash characters (the control and
HTML escapes of the Go encoder never arise for the inputs considered). -/
def jsonEscapeChar (c : Char) : String :=
  if c = '"' then "\\\"" else if c = '\\' then "\\\\" else String.singleton c

/-- Escape of a whole string body for a JSON string literal. -/
def jsonEscape (s : String) : String :=
  String.join (s.toList.map jsonEscapeChar)

mutual

/-- JSON encoder mirroring the observable output of json.Marshal on the
modelled value shapes. -/
def jsonEncode : JsonValue → String
  | JsonValue.null => "null"
  | JsonValue.bool true => "true"
  | JsonValue.bool false => "false"
  | JsonValue.num n => toString n
  | JsonValue.str s => "\"" ++ jsonEscape s ++ "\""
  | JsonValue.arr xs => "[" ++ String.intercalate "," (jsonEncodeList xs) ++ "]"
  | JsonValue.obj kvs => "\x7b" ++ String.intercalate "," (jsonEncodeObj kvs) ++ "\x7d"

/-- Encodes each element of a JSON array. -/
def jsonEncodeList : List JsonValue → List String
  | [] => []
  | x :: xs => jsonEncode x :: jsonEncodeList xs

/-- Encodes each member of a JSON object. -/
def jsonEncodeObj : List (String × JsonValue) → List String
  | [] => []
  | kv :: xs => ("\"" ++ jsonEscape kv.1 ++ "\":" ++ jsonEncode kv.2) :: jsonEncodeObj xs

end

/-- Removes the longest run of leading double-quote characters from a
character list; one side of Go strings.Trim(s, "\"") as used in
setToRedis, syncToRedis and syncMemoryToRedis. -/
def dropQuotes : List Char → List Char
  | [] => []
  | c :: cs => if c = '"' then dropQuotes cs else c :: cs

/-- Go strings.Trim(s, "\"") : removes every leading and every trailing
double-quote character of s. -/
def goTrimQuotes (s : String) : String :=
  String.mk ((dropQuotes ((dropQuotes s.data).reverse)).reverse)

/-- The cache record of the package (struct Cache): key, data, advisory
type tag (Go field Type), Unix-seconds timestamp, and TTL in seconds where
0 means never expires. -/
structure Cache where
  key : String
  data : JsonValue
  typeTag : String
  timestamp : Int
  ttl : Int

/-- The string reflect.TypeOf(value).String() yields for a non-nil Go
interface holding the modelled value shape. -/
def goTypeString : JsonValue → String
  | JsonValue.null => "interface \x7b\x7d"
  | JsonValue.bool _ => "bool"
  | JsonValue.num _ => "int"
  | JsonValue.str _ => "string"
  | JsonValue.arr _ => "[]interface \x7b\x7d"
  | JsonValue.obj _ => "map[string]interface \x7b\x7d"

/-- One remote (Redis) call, recorded in the operation trace: GET and DEL
carry the key, SET carries key, payload string and the TTL in seconds
handed to the client (0 = no expiry). -/
inductive RemoteOp where
  | getOp : String → RemoteOp
  | setOp : String → String → Int → RemoteOp
  | delOp : String → RemoteOp
deriving DecidableEq

/-- Lookup in an association list keyed by strings, modelling sync.Map
Load and the presence test of an on-disk file. -/
def lookupKey : List (String × Cache) → String → Option Cache
  | [], _ => none
  | p :: rest, k => if p.1 = k then some p.2 else lookupKey rest k

/-- Removal from an association list, modelling sync.Map Delete and
os.Remove of the file of a key. -/
def eraseKey : List (String × Cache) → String → List (String × Cache)
  | [], _ => []
  | p :: rest, k => if p.1 = k then eraseKey rest k else p :: eraseKey rest k

/-- Store into an association list, modelling sync.Map Store and a file
write (overwrite semantics). -/
def insertKey (l : List (String × Cache)) (k : String) (c : Cache) : List (String × Cache) :=
  (k, c) :: eraseKey l k

/-- Process state of a RedisFallback instance: the memory map, the on-disk
store (decoded records by key), the write-behind channel contents, the
MaxQueue and MaxRetry options, the health flag, whether the health-check
ticker exists (checker non-nil), and the recovery single-flight flag. -/
structure RF where
  mem : List (String × Cache)
  disk : List (String × Cache)
  queue : List (String × Cache)
  maxQueue : Nat
  maxRetry : Nat
  isHealth : Bool
  checker : Bool
  isRecovering : Bool

/-- Deterministic environment oracle: getResult gives the combined outcome
of one redis GET attempt plus json.Unmarshal into a Cache (none covers
the redis.Nil not-found reply, transport errors, and undecodable
payloads); setOk and delOk tell whether remote SET and DEL attempts
succeed; diskOk tells whether a synchronous file write succeeds. -/
structure Env where
  getResult : String → Option Cache
  setOk : Bool
  delOk : Bool
  diskOk : Bool

/-- unit.go isExpired: a record is expired iff its TTL is positive and now
is strictly past timestamp + TTL. -/
def isExpired (now : Int) (item : Cache) : Bool :=
  if item.ttl ≤ 0 then false else decide (item.timestamp + item.ttl < now)

/-- removeJSONFile of unit.go: os.Remove of the file of the key, the error
being discarded. -/
def removeJSONFile (rf : RF) (key : String) : RF :=
  { rf with disk := eraseKey rf.disk key }

/-- writeToFile of writer.go: mkdir-p plus json.Marshal of the whole
record plus os.WriteFile; the environment flag diskOk decides whether the
file-system steps succeed. -/
def writeToFile (rf : RF) (env : Env) (key : String) (cache : Cache) : RF × Option String :=
  if env.diskOk then ({ rf with disk := insertKey rf.disk key cache }, none)
  else (rf, some "Failed to create folder")

/-- The content writeToFile hands to os.WriteFile: json.Marshal of the
whole Cache struct in declared field order, the ttl member being omitted
when zero (struct tag omitempty). No quote trimming is applied here. -/
def writeToFileContent (c : Cache) : String :=
  jsonEncode (JsonValue.obj
    ([("key", JsonValue.str c.key), ("data", c.data), ("type", JsonValue.str c.typeTag),
      ("timestamp", JsonValue.num c.timestamp)] ++
     (if c.ttl = 0 then [] else [("ttl", JsonValue.num c.ttl)])))

/-- setToMemory: store the record in the memory map, then a non-blocking
send on the write-behind channel; when the channel is full the record is
written to disk synchronously and that result is returned. -/
def setToMemory (rf : RF) (env : Env) (key : String) (item : Cache) : RF × Option String :=
  let rf1 := { rf with mem := insertKey rf.mem key item }
  if rf1.queue.length < rf1.maxQueue then
    ({ rf1 with queue := rf1.queue ++ [(key, item)] }, none)
  else
    writeToFile rf1 env key item

/-- changeToFallbackMode of sync.go: clear the health flag; start the
health-check ticker unless one is already running. -/
def changeToFallbackMode (rf : RF) : RF :=
  let rf1 := { rf with isHealth := false }
  if rf1.checker then rf1 else { rf1 with checker := true }

/-- The retry loop of setToRedis: up to the given number of attempts, each
recorded in the trace; with the deterministic environment the first
attempt already decides success. -/
def setRedisAttempts (env : Env) (key : String) (payload : String) (ttl : Int) :
    Nat → List RemoteOp × Bool
  | 0 => ([], false)
  | Nat.succ n =>
    if env.setOk then ([RemoteOp.setOp key payload ttl], true)
    else
      let r := setRedisAttempts env key payload ttl n
      (RemoteOp.setOp key payload ttl :: r.1, r.2)

/-- setToRedis: JSON-encode the data field, strings.Trim the quotes, retry
the remote SET up to MaxRetry times; on success store the record in
memory; on exhaustion switch to fallback mode and re-dispatch through
setToMemory. -/
def setToRedis (rf : RF) (env : Env) (key : String) (cache : Cache) : RF × List RemoteOp × Option String :=
  let data := goTrimQuotes (jsonEncode cache.data)
  let r := setRedisAttempts env key data cache.ttl rf.maxRetry
  if r.2 then
    ({ rf with mem := insertKey rf.mem key cache }, r.1, none)
  else
    let rf1 := changeToFallbackMode rf
    let r2 := setToMemory rf1 env key cache
    (r2.1, r.1, r2.2)

/-- The record construction at the top of Set: timestamp = now, type tag
from reflect, TTL only set when the ttl argument is positive (modelled at
seconds granularity, matching the Unix-seconds clock of the package). -/
def mkItem (now : Int) (key : String) (v : JsonValue) (ttl : Int) : Cache :=
  { key := key, data := v, typeTag := goTypeString v, timestamp := now,
    ttl := if 0 < ttl then ttl else 0 }

/-- Outcome of the public Set: either a Go runtime panic (nil pointer
dereference) or a new state, a remote-op trace, and an optional error. -/
inductive SetOutcome where
  | panicked : SetOutcome
  | ok : RF → List RemoteOp → Option String → SetOutcome

/-- Public Set: snapshot the health flag, build the record — where
reflect.TypeOf(value) is nil for a nil value and calling String() on it
panics before any tier is touched — then dispatch to setToRedis or
setToMemory. A nil value is modelled as none. -/
def Set (rf : RF) (env : Env) (now : Int) (key : String) (value : Option JsonValue) (ttl : Int) :
    SetOutcome :=
  match value with
  | none => SetOutcome.panicked
  | some v =>
    let item := mkItem now key v ttl
    if rf.isHealth then
      let r := setToRedis rf env key item
      SetOutcome.ok r.1 r.2.1 r.2.2
    else
      let r := setToMemory rf env key item
      SetOutcome.ok r.1 [] r.2

/-- loadFromFile: read and decode the on-disk file (the disk tier of the
model holds decoded records, so the parse step always succeeds on present
files); an expired record is removed from disk and reported Not found; a
live record warms the memory map. -/
def loadFromFile (rf : RF) (now : Int) (key : String) : RF × Except String JsonValue :=
  match lookupKey rf.disk key with
  | none => (rf, Except.error "Not found")
  | some item =>
    if isExpired now item then
      (removeJSONFile rf key, Except.error "Not found")
    else
      ({ rf with mem := insertKey rf.mem key item }, Except.ok item.data)

/-- getFromMemory: memory hit that is expired deletes the memory entry
only (not the file) and reports Not found; a live hit returns the data;
a miss falls through to loadFromFile. -/
def getFromMemory (rf : RF) (now : Int) (key : String) : RF × Except String JsonValue :=
  match lookupKey rf.mem key with
  | some item =>
    if isExpired now item then
      ({ rf with mem := eraseKey rf.mem key }, Except.error "Not found")
    else
      (rf, Except.ok item.data)
  | none => loadFromFile rf now key

/-- syncToRedis of sync.go: the async refresh issued on a healthy-mode
memory hit; a fire-and-forget remote SET of the trimmed JSON encoding of
the data with the stored TTL. -/
def syncToRedis (key : String) (cache : Cache) : RemoteOp :=
  RemoteOp.setOp key (goTrimQuotes (jsonEncode cache.data)) cache.ttl

/-- The retry loop of getFromRedis: each attempt is a remote GET followed
by json.Unmarshal; the oracle gives the combined outcome per attempt. -/
def getRedisAttempts (env : Env) (key : String) : Nat → List RemoteOp × Option Cache
  | 0 => ([], none)
  | Nat.succ n =>
    match env.getResult key with
    | some item => ([RemoteOp.getOp key], some item)
    | none =>
      let r := getRedisAttempts env key n
      (RemoteOp.getOp key :: r.1, r.2)

/-- getFromRedis: an expired memory hit purges memory and the disk file
and reports Not found; a live memory hit schedules the async refresh and
returns the data; otherwise retry the remote GET, store a decoded result,
and on exhaustion switch to fallback mode and re-read from memory. -/
def getFromRedis (rf : RF) (env : Env) (now : Int) (key : String) :
    RF × List RemoteOp × Except String JsonValue :=
  match lookupKey rf.mem key with
  | some item =>
    if isExpired now item then
      let rf1 := { rf with mem := eraseKey rf.mem key }
      let rf2 := removeJSONFile rf1 key
      (rf2, [], Except.error "Not found")
    else
      (rf, [syncToRedis key item], Except.ok item.data)
  | none =>
    let r := getRedisAttempts env key rf.maxRetry
    match r.2 with
    | some item => ({ rf with mem := insertKey rf.mem key item }, r.1, Except.ok item.data)
    | none =>
      let rf1 := changeToFallbackMode rf
      let r2 := getFromMemory rf1 now key
      (r2.1, r.1, r2.2)

/-- Public Get: snapshot the health flag and dispatch. -/
def Get (rf : RF) (env : Env) (now : Int) (key : String) :
    RF × List RemoteOp × Except String JsonValue :=
  if rf.isHealth then getFromRedis rf env now key
  else
    let r := getFromMemory rf now key
    (r.1, [], r.2)

/-- Del of del.go: snapshot health, remove from memory and disk
unconditionally (the os.Remove error is ignored), then in healthy mode a
single remote DEL attempt whose error is propagated. -/
def Del (rf : RF) (env : Env) (key : String) : RF × List RemoteOp × Option String :=
  let isHealth := rf.isHealth
  let rf1 := { rf with mem := eraseKey rf.mem key }
  let rf2 := removeJSONFile rf1 key
  if isHealth then
    if env.delOk then (rf2, [RemoteOp.delOp key], none)
    else (rf2, [RemoteOp.delOp key], some "Failed to delete")
  else
    (rf2, [], none)

/-- The pipeline SETs issued by the Range body of syncMemoryToRedis: for
each memory record that is not expired, the trimmed JSON payload is SET
with remainingTTL = timestamp + ttl − now, but only when that quantity is
positive; the batching into groups of 100 Exec calls does not change which
SETs are issued and is not modelled. -/
def recoveryOps (now : Int) (mem : List (String × Cache)) : List RemoteOp :=
  mem.filterMap fun kv =>
    if isExpired now kv.2 then none
    else
      let data := goTrimQuotes (jsonEncode kv.2.data)
      let remainingTTL := kv.2.timestamp + kv.2.ttl - now
      if 0 < remainingTTL then some (RemoteOp.setOp kv.1 data remainingTTL) else none

/-- syncMemoryToRedis: the compare-and-swap on isRecovering guards the
pipelining; a call that finds the flag set logs and returns with no remote
work; otherwise the flag is held for the duration (the deferred Store
false restores it, so the state is returned unchanged). -/
def syncMemoryToRedis (rf : RF) (now : Int) : RF × List RemoteOp :=
  if rf.isRecovering then (rf, [])
  else (rf, recoveryOps now rf.mem)

/-- The disk re-ingestion loop of changeToNormalMode: every parsed file is
stored into the memory map under the Key field recorded in the file. -/
def ingestDisk (mem disk : List (String × Cache)) : List (String × Cache) :=
  disk.foldl (fun m kv => insertKey m kv.2.key kv.2) mem

/-- cleanupLocalFile: walk the per-DB subtree removing every .json file
and then the empty directories; the disk tier becomes empty. -/
def cleanupLocalFile (rf : RF) : RF :=
  { rf with disk := [] }

/-- changeToNormalMode: walk the disk tree re-ingesting every record into
memory, call syncMemoryToRedis, purge the local files, and set the health
flag; only the syncMemoryToRedis step consults the recovery flag. -/
def changeToNormalMode (rf : RF) (now : Int) : RF × List RemoteOp :=
  let rf1 := { rf with mem := ingestDisk rf.mem rf.disk }
  let r := syncMemoryToRedis rf1 now
  let rf2 := cleanupLocalFile r.1
  let rf3 := { rf2 with isHealth := true }
  (rf3, r.2)

/-- Spec-refinement stripper, modelled from the words of the claim: at
most one enclosing pair of double quotes is removed when present; all
other leading or trailing quote characters are preserved. Stated only to
be compared against goTrimQuotes, the function the source uses. -/
def stripOnePairSpec (s : String) : String :=
  if 2 ≤ s.data.length ∧ s.data.head? = some '"' ∧ s.data.getLast? = some '"' then
    String.mk (s.data.drop 1).dropLast
  else s

/-- One public operation of the facade, tagged with the clock value at
which it runs; used to express that a record survives unrelated calls. -/
inductive Op where
  | getOp : String → Int → Op
  | setOp : String → Option JsonValue → Int → Int → Op
  | delOp : String → Op

/-- The key an operation addresses. -/
def opKey : Op → String
  | Op.getOp k _ => k
  | Op.setOp k _ _ _ => k
  | Op.delOp k => k

/-- State reached after running one public operation (a panicking Set
leaves the state unchanged). -/
def applyOp (env : Env) (rf : RF) : Op → RF
  | Op.getOp k now => (Get rf env now k).1
  | Op.setOp k v ttl now =>
    match Set rf env now k v ttl with
    | SetOutcome.panicked => rf
    | SetOutcome.ok rf2 _ _ => rf2
  | Op.delOp k => (Del rf env k).1

/-- State reached after running a list of public operations in order. -/
def runOps (env : Env) (rf : RF) : List Op → RF
  | [] => rf
  | op :: ops => runOps env (applyOp env rf op) ops

/-- A healthy instance with default options and empty tiers. -/
def baseRF : RF :=
  { mem := [], disk := [], queue := [], maxQueue := 1000, maxRetry := 3,
    isHealth := true, checker := false, isRecovering := false }

/-- A fallback-mode instance with default options and empty tiers. -/
def fbRF : RF :=
  { baseRF with isHealth := false, checker := true }

/-- An environment where every remote and disk operation succeeds and no
remote GET yields a decodable record. -/
def idleEnv : Env :=
  { getResult := fun _ => none, setOk := true, delOk := true, diskOk := true }

/-- An environment where the remote is unreachable: every GET, SET and DEL
attempt fails, while the local disk works. -/
def downEnv : Env :=
  { getResult := fun _ => none, setOk := false, delOk := false, diskOk := true }

/-- The record "k1" maps to "v" with timestamp 0 and TTL 10, as built by
Set at time 0. -/
def c1item : Cache := mkItem 0 "k1" (JsonValue.str "v") 10

/-- The state after the healthy Set of c1item into baseRF. -/
def c1rf : RF := { baseRF with mem := [("k1", c1item)] }

/-- An object-shaped data value; its trimmed JSON encoding is itself a
complete JSON object, which json.Unmarshal happily reads into the Cache
struct (unknown members are ignored), yielding the zero-valued record. -/
def objV : JsonValue := JsonValue.obj [("a", JsonValue.num 1)]

/-- The zero-valued Cache record: what json.Unmarshal leaves in the
target when the remote payload is a JSON object carrying none of the
Cache field names; its nil Data is modelled as JsonValue.null and its
zero TTL makes it never expire. -/
def zeroCache : Cache :=
  { key := "", data := JsonValue.null, typeTag := "", timestamp := 0, ttl := 0 }

/-- Environment for the C1 trace: the remote GET of "k1" finds the
object payload still alive — the async refresh of the intervening live
Get re-issued the SET with the full TTL, pushing the remote expiry past
the record expiry — and decoding it into the Cache struct succeeds with
the zero-valued record. All writes succeed. -/
def envC1 : Env :=
  { getResult := fun k => if k = "k1" then some zeroCache else none,
    setOk := true, delOk := true, diskOk := true }

/-- The record built by Set("k1", objV, 10) at time 0. -/
def c1xItem : Cache := mkItem 0 "k1" objV 10

/-- The state after that healthy Set on baseRF. -/
def c1xrf0 : RF := { baseRF with mem := [("k1", c1xItem)] }

/-- A record that never expires (TTL 0) written at time 90. -/
def c2rec : Cache := { key := "k2", data := JsonValue.str "v", typeTag := "string", timestamp := 90, ttl := 0 }

/-- A fallback-mode state holding only the never-expiring record, with
no recovery in flight. -/
def c2rf : RF := { fbRF with mem := [("k2", c2rec)] }

/-- A record whose data is the Go string hi" — its JSON encoding ends in
an escaped quote followed by the closing quote. -/
def c3rec : Cache := { key := "k3", data := JsonValue.str "hi\"", typeTag := "string", timestamp := 0, ttl := 0 }

/-- A record that is expired at time 100 (written at 0 with TTL 5). -/
def c4rec : Cache := { key := "k4", data := JsonValue.str "v", typeTag := "string", timestamp := 0, ttl := 5 }

/-- A fallback-mode state where the expired record sits in the memory map
and its file is still on disk. -/
def c4rf : RF := { fbRF with mem := [("k4", c4rec)], disk := [("k4", c4rec)] }

/-- A healthy state holding one live record, used to exercise Del. -/
def c5rf : RF := { baseRF with mem := [("k5", c1item)], disk := [("k5", c1item)] }

/-- A record alive at time 100: written at 95 with TTL 50. -/
def c8rec : Cache := { key := "k8", data := JsonValue.str "v", typeTag := "string", timestamp := 95, ttl := 50 }

/-- A fallback-mode state with one on-disk record and a recovery already
in flight (isRecovering holds). -/
def c8rf : RF := { fbRF with disk := [("k8", c8rec)], isRecovering := true }

/-! Association-list lemmas. -/

theorem lookupKey_eraseKey_self (l : List (String × Cache)) (k : String) :
    lookupKey (eraseKey l k) k = none := by
  induction l with
  | nil => rfl
  | cons p rest ih =>
    by_cases h : p.1 = k
    · simpa [eraseKey, h] using ih
    · simp [eraseKey, lookupKey, h, ih]

theorem lookupKey_eraseKey_ne (l : List (String × Cache)) (k k2 : String) (h : k ≠ k2) :
    lookupKey (eraseKey l k) k2 = lookupKey l k2 := by
  induction l with
  | nil => rfl
  | cons p rest ih =>
    by_cases hp : p.1 = k
    · simp [eraseKey, lookupKey, hp, h, ih]
    · by_cases hq : p.1 = k2 <;> simp [eraseKey, lookupKey, hp, hq, Ne.symm h, ih]

theorem lookupKey_insertKey_self (l : List (String × Cache)) (k : String) (c : Cache) :
    lookupKey (insertKey l k c) k = some c := by
  simp [insertKey, lookupKey]

theorem lookupKey_insertKey_ne (l : List (String × Cache)) (k : String) (c : Cache)
    (k2 : String) (h : k ≠ k2) :
    lookupKey (insertKey l k c) k2 = lookupKey l k2 := by
  simp [insertKey, lookupKey, h, lookupKey_eraseKey_ne l k k2 h]

/-- C7: after Del, in either mode and even when the remote DEL fails, the
memory map and the on-disk file of the key are gone; the returned error
does not depend on whether the file existed (a missing file is not an
error), it is present exactly when the instance was healthy and the
remote DEL attempt failed. -/
theorem C7_del_purges_both_tiers (rf : RF) (env : Env) (key : String) :
    lookupKey (Del rf env key).1.mem key = none ∧
    lookupKey (Del rf env key).1.disk key = none ∧
    ((Del rf env key).2.2 = none ↔ (rf.isHealth = false ∨ env.delOk = true)) := by
  unfold Del removeJSONFile
  cases hh : rf.isHealth <;> cases hd : env.delOk <;>
    simp [lookupKey_eraseKey_self, hh, hd]

/-- C10: Set with a nil value panics — reflect.TypeOf(nil) is a nil
reflect.Type and calling String() on it dereferences nil before any tier
is updated — while Set with any non-nil value never panics. -/
theorem C10_set_nil_panics (rf : RF) (env : Env) (now : Int) (key : String) (ttl : Int) :
    Set rf env now key none ttl = SetOutcome.panicked ∧
    ∀ v : JsonValue, Set rf env now key (some v) ttl ≠ SetOutcome.panicked := by
  refine ⟨rfl, fun v => ?_⟩
  unfold Set
  cases hh : rf.isHealth <;> simp

/-- C2: the claim says every record that is non-expired at recovery start
is SET on the remote, records with ttl = 0 carrying no expiry. The code
disagrees: c2rec has ttl 0, so it never expires, yet syncMemoryToRedis
issues no pipeline SET for it, because remainingTTL = 90 + 0 − 100 is not
positive. The record is therefore dropped from the remote (and the
recovery then deletes its file), although isExpired reports it alive. -/
theorem C2_ttl0_record_not_synced :
    isExpired 100 c2rec = false ∧
    c2rf.isRecovering = false ∧
    syncMemoryToRedis c2rf 100 = (c2rf, []) := by
  exact ⟨rfl, rfl, rfl⟩

/-- C8 counterexample: with the recovering flag already set, running the
recovery driver changeToNormalMode still re-ingests the on-disk record
into memory, still purges the on-disk tree, and still sets the health
flag; only the memory-to-remote pipelining is skipped. The claim that a
blocked recovery attempt performs none of the recovery steps is false. -/
theorem C8_blocked_recovery_still_ingests_and_purges :
    c8rf.isRecovering = true ∧
    (changeToNormalMode c8rf 100).1.mem = [("k8", c8rec)] ∧
    (changeToNormalMode c8rf 100).1.disk = [] ∧
    (changeToNormalMode c8rf 100).1.isHealth = true ∧
    (changeToNormalMode c8rf 100).2 = [] := by
  exact ⟨rfl, rfl, rfl, rfl, rfl⟩

/-- C8 amended: the compare-and-swap on isRecovering single-flights only
the memory-to-remote pipelining: syncMemoryToRedis returns at once with
no remote ops when the flag is set, but changeToNormalMode still performs
the disk re-ingestion, the on-disk purge, and sets the health flag. -/
theorem C8_amended_cas_guards_only_pipeline (rf : RF) (now : Int)
    (h : rf.isRecovering = true) :
    syncMemoryToRedis rf now = (rf, []) ∧
    (changeToNormalMode rf now).2 = [] ∧
    (changeToNormalMode rf now).1.mem = ingestDisk rf.mem rf.disk ∧
    (changeToNormalMode rf now).1.disk = [] ∧
    (changeToNormalMode rf now).1.isHealth = true := by
  unfold changeToNormalMode syncMemoryToRedis cleanupLocalFile
  simp [h]

/-- Closed witness for the amended C8 theorem at the concrete blocked
state c8rf. -/
theorem C8_amended_cas_guards_only_pipeline_witness :
    syncMemoryToRedis c8rf 100 = (c8rf, []) ∧ (changeToNormalMode c8rf 100).1.disk = [] :=
  ⟨(C8_amended_cas_guards_only_pipeline c8rf 100 rfl).1,
   (C8_amended_cas_guards_only_pipeline c8rf 100 rfl).2.2.2.1⟩

/-- With a deterministically failing remote, the SET retry loop makes
exactly its attempt budget of calls and reports failure. -/
theorem setRedisAttempts_fail (env : Env) (key payload : String) (ttl : Int)
    (h : env.setOk = false) (n : Nat) :
    setRedisAttempts env key payload ttl n =
      (List.replicate n (RemoteOp.setOp key payload ttl), false) := by
  induction n with
  | zero => rfl
  | succ n ih => simp [setRedisAttempts, h, ih, List.replicate]

/-- With a remote that never yields a decodable record, the GET retry
loop makes exactly its attempt budget of calls and comes back empty. -/
theorem getRedisAttempts_none (env : Env) (key : String)
    (h : env.getResult key = none) (n : Nat) :
    getRedisAttempts env key n = (List.replicate n (RemoteOp.getOp key), none) := by
  induction n with
  | zero => rfl
  | succ n ih => simp [getRedisAttempts, h, ih, List.replicate]

/-- setToMemory stores the record in the memory map and changes neither
the mode fields nor the option fields. -/
theorem setToMemory_fields (rf : RF) (env : Env) (key : String) (item : Cache) :
    lookupKey (setToMemory rf env key item).1.mem key = some item ∧
    (setToMemory rf env key item).1.isHealth = rf.isHealth ∧
    (setToMemory rf env key item).1.checker = rf.checker ∧
    (setToMemory rf env key item).1.maxRetry = rf.maxRetry := by
  unfold setToMemory writeToFile
  by_cases hq : rf.queue.length < rf.maxQueue
  · simp [hq, lookupKey_insertKey_self]
  · cases hd : env.diskOk <;> simp [hq, hd, lookupKey_insertKey_self]

/-- changeToFallbackMode clears the health flag, leaves the ticker
running (starting it when absent), and touches no storage tier. -/
theorem changeToFallbackMode_fields (rf : RF) :
    (changeToFallbackMode rf).isHealth = false ∧
    (changeToFallbackMode rf).checker = true ∧
    (changeToFallbackMode rf).mem = rf.mem ∧
    (changeToFallbackMode rf).disk = rf.disk ∧
    (changeToFallbackMode rf).queue = rf.queue ∧
    (changeToFallbackMode rf).maxQueue = rf.maxQueue ∧
    (changeToFallbackMode rf).maxRetry = rf.maxRetry := by
  unfold changeToFallbackMode
  cases hc : rf.checker <;> simp [hc]

/-- On a deterministically failing remote, setToRedis runs its whole
retry budget and re-dispatches through the fallback write path. -/
theorem setToRedis_fail (rf : RF) (env : Env) (key : String) (c : Cache)
    (hset : env.setOk = false) :
    setToRedis rf env key c =
      ((setToMemory (changeToFallbackMode rf) env key c).1,
       List.replicate rf.maxRetry (RemoteOp.setOp key (goTrimQuotes (jsonEncode c.data)) c.ttl),
       (setToMemory (changeToFallbackMode rf) env key c).2) := by
  have hr := setRedisAttempts_fail env key (goTrimQuotes (jsonEncode c.data)) c.ttl hset rf.maxRetry
  simp [setToRedis, hr]

/-- getFromMemory leaves the mode fields alone, and answers Not found
when the key is in neither memory nor disk. -/
theorem getFromMemory_fields (rf : RF) (now : Int) (key : String) :
    (getFromMemory rf now key).1.isHealth = rf.isHealth ∧
    (getFromMemory rf now key).1.checker = rf.checker ∧
    (lookupKey rf.mem key = none → lookupKey rf.disk key = none →
      (getFromMemory rf now key).2 = Except.error "Not found") := by
  unfold getFromMemory loadFromFile removeJSONFile
  cases hm : lookupKey rf.mem key with
  | none =>
    cases hd : lookupKey rf.disk key with
    | none => simp
    | some item => cases he : isExpired now item <;> simp [he, hd]
  | some item => cases he : isExpired now item <;> simp [he, hm]

/-- C5 counterexample: in healthy mode with a failing remote and the
default retry budget of 3, Del issues exactly one remote DEL attempt,
returns the error, and does not re-dispatch through the fallback path
(the health flag stays true). The claim that every mutating remote call,
Delete included, is retried up to max_retry times is false. -/
theorem C5_del_is_single_attempt :
    c5rf.isHealth = true ∧
    c5rf.maxRetry = 3 ∧
    (Del c5rf downEnv "k5").2.1 = [RemoteOp.delOp "k5"] ∧
    (Del c5rf downEnv "k5").2.1.length ≠ c5rf.maxRetry ∧
    (Del c5rf downEnv "k5").2.2 = some "Failed to delete" ∧
    (Del c5rf downEnv "k5").1.isHealth = true := by
  refine ⟨rfl, rfl, rfl, by decide, rfl, rfl⟩

/-- C5 amended: the retry-and-re-dispatch discipline holds for the SET
path — on a failing remote, setToRedis makes exactly maxRetry attempts,
flips to fallback mode, and re-dispatches the record through the memory
path — but Del makes exactly one DEL attempt and propagates its error
without retrying and without flipping the mode. -/
theorem C5_amended_set_retries_del_does_not (rf : RF) (env : Env) (key : String) (c : Cache)
    (hset : env.setOk = false) (hdel : env.delOk = false) (hh : rf.isHealth = true) :
    (setToRedis rf env key c).2.1.length = rf.maxRetry ∧
    (setToRedis rf env key c).1.isHealth = false ∧
    lookupKey (setToRedis rf env key c).1.mem key = some c ∧
    (Del rf env key).2.1 = [RemoteOp.delOp key] ∧
    (Del rf env key).2.2 = some "Failed to delete" ∧
    (Del rf env key).1.isHealth = rf.isHealth := by
  have hsr := setToRedis_fail rf env key c hset
  have hm := setToMemory_fields (changeToFallbackMode rf) env key c
  have hcb := changeToFallbackMode_fields rf
  refine ⟨?_, ?_, ?_, ?_, ?_, ?_⟩
  · rw [hsr]; simp
  · rw [hsr]; exact hm.2.1.trans hcb.1
  · rw [hsr]; exact hm.1
  · simp [Del, hh, hdel, removeJSONFile]
  · simp [Del, hh, hdel, removeJSONFile]
  · simp [Del, hh, hdel, removeJSONFile]

/-- Closed witness for the amended C5 theorem: the concrete healthy state
with the remote down. -/
theorem C5_amended_set_retries_del_does_not_witness :
    (setToRedis c5rf downEnv "k5" c1item).2.1.length = c5rf.maxRetry ∧
    (Del c5rf downEnv "k5").2.1 = [RemoteOp.delOp "k5"] := by
  have h := C5_amended_set_retries_del_does_not c5rf downEnv "k5" c1item rfl rfl rfl
  exact ⟨h.1, h.2.2.2.1⟩

/-- C6: in fallback mode Set never blocks on the write-behind queue: it
stores the record in memory, then the enqueue is a non-blocking send;
with free capacity Set returns Ok at once with the record enqueued, and
on a full channel the record is written to disk synchronously and that
write result (Ok, or the disk error) is returned. -/
theorem C6_fallback_set_nonblocking (rf : RF) (env : Env) (now : Int) (key : String)
    (v : JsonValue) (ttl : Int) (hfb : rf.isHealth = false) :
    Set rf env now key (some v) ttl =
      SetOutcome.ok (setToMemory rf env key (mkItem now key v ttl)).1 []
        (setToMemory rf env key (mkItem now key v ttl)).2 ∧
    lookupKey (setToMemory rf env key (mkItem now key v ttl)).1.mem key =
      some (mkItem now key v ttl) ∧
    (rf.queue.length < rf.maxQueue →
      (setToMemory rf env key (mkItem now key v ttl)).2 = none ∧
      (setToMemory rf env key (mkItem now key v ttl)).1.queue =
        rf.queue ++ [(key, mkItem now key v ttl)] ∧
      (setToMemory rf env key (mkItem now key v ttl)).1.disk = rf.disk) ∧
    (¬ rf.queue.length < rf.maxQueue →
      (setToMemory rf env key (mkItem now key v ttl)).1.queue = rf.queue ∧
      (env.diskOk = true →
        (setToMemory rf env key (mkItem now key v ttl)).2 = none ∧
        lookupKey (setToMemory rf env key (mkItem now key v ttl)).1.disk key =
          some (mkItem now key v ttl)) ∧
      (env.diskOk = false →
        (setToMemory rf env key (mkItem now key v ttl)).2 = some "Failed to create folder" ∧
        (setToMemory rf env key (mkItem now key v ttl)).1.disk = rf.disk)) := by
  refine ⟨by simp [Set, hfb], (setToMemory_fields rf env key (mkItem now key v ttl)).1, ?_, ?_⟩
  · intro hq
    simp [setToMemory, hq]
  · intro hq
    cases hd : env.diskOk <;> simp [setToMemory, writeToFile, hq, hd, lookupKey_insertKey_self]

/-- Closed witness for the C6 theorem at the concrete fallback state with
an empty queue. -/
theorem C6_fallback_set_nonblocking_witness :
    (setToMemory fbRF idleEnv "k" (mkItem 0 "k" (JsonValue.str "v") 5)).2 = none := by
  have h := C6_fallback_set_nonblocking fbRF idleEnv 0 "k" (JsonValue.str "v") 5 rfl
  exact (h.2.2.1 (by decide)).1

/-- C4 counterexample: a fallback-mode Get that observes the expired
record in the memory map returns Not found and deletes the memory entry,
but the on-disk file of the key is left in place, contrary to the claim
that the record is purged from both tiers. -/
theorem C4_fallback_get_leaves_disk_file :
    c4rf.isHealth = false ∧
    isExpired 100 c4rec = true ∧
    (Get c4rf idleEnv 100 "k4").2.2 = Except.error "Not found" ∧
    lookupKey (Get c4rf idleEnv 100 "k4").1.mem "k4" = none ∧
    lookupKey (Get c4rf idleEnv 100 "k4").1.disk "k4" = some c4rec := by
  exact ⟨rfl, rfl, rfl, rfl, rfl⟩

/-- C4 amended: a Get that observes an expired record in the memory map
always returns Not found and deletes the memory entry; the on-disk file
is removed as well in healthy mode, while a fallback-mode memory hit
leaves the disk untouched (the file is only removed when observed through
loadFromFile or by the background janitor). -/
theorem C4_amended_expired_memory_hit (rf : RF) (env : Env) (now : Int) (key : String)
    (item : Cache) (hmem : lookupKey rf.mem key = some item)
    (hexp : isExpired now item = true) :
    (Get rf env now key).2.2 = Except.error "Not found" ∧
    lookupKey (Get rf env now key).1.mem key = none ∧
    (rf.isHealth = true → lookupKey (Get rf env now key).1.disk key = none) ∧
    (rf.isHealth = false → (Get rf env now key).1.disk = rf.disk) := by
  unfold Get getFromRedis getFromMemory removeJSONFile
  cases hh : rf.isHealth <;> simp [hmem, hexp, lookupKey_eraseKey_self]

/-- Closed witness for the amended C4 theorem at the concrete fallback
state. -/
theorem C4_amended_expired_memory_hit_witness :
    (Get c4rf idleEnv 100 "k4").2.2 = Except.error "Not found" ∧
    (Get c4rf idleEnv 100 "k4").1.disk = c4rf.disk := by
  have h := C4_amended_expired_memory_hit c4rf idleEnv 100 "k4" c4rec rfl rfl
  exact ⟨h.1, h.2.2.2 rfl⟩

/-- C9: a healthy-mode Get of a key absent from the memory map whose
remote GET never yields a decodable record — the ordinary not-found
reply included — exhausts the maxRetry GET attempts, clears the health
flag, and leaves the health-check ticker running, so the client is in
fallback mode afterwards even though the remote may be reachable; when
the key is also absent from disk the call returns Not found. -/
theorem C9_healthy_get_miss_flips_mode (rf : RF) (env : Env) (now : Int) (key : String)
    (hh : rf.isHealth = true) (hmem : lookupKey rf.mem key = none)
    (hget : env.getResult key = none) :
    (Get rf env now key).1.isHealth = false ∧
    (Get rf env now key).1.checker = true ∧
    (Get rf env now key).2.1 = List.replicate rf.maxRetry (RemoteOp.getOp key) ∧
    (lookupKey rf.disk key = none → (Get rf env now key).2.2 = Except.error "Not found") := by
  have hr := getRedisAttempts_none env key hget rf.maxRetry
  have hget2 : Get rf env now key =
      ((getFromMemory (changeToFallbackMode rf) now key).1,
       List.replicate rf.maxRetry (RemoteOp.getOp key),
       (getFromMemory (changeToFallbackMode rf) now key).2) := by
    simp [Get, getFromRedis, hh, hmem, hr]
  have hf := getFromMemory_fields (changeToFallbackMode rf) now key
  have hcb := changeToFallbackMode_fields rf
  rw [hget2]
  refine ⟨hf.1.trans hcb.1, hf.2.1.trans hcb.2.1, rfl, fun hdisk => ?_⟩
  exact hf.2.2 (by rw [hcb.2.2.1]; exact hmem) (by rw [hcb.2.2.2.1]; exact hdisk)

/-- Closed witness for the C9 theorem: a healthy instance with empty
tiers asked for a missing key. -/
theorem C9_healthy_get_miss_flips_mode_witness :
    (Get baseRF idleEnv 0 "missing").1.isHealth = false ∧
    (Get baseRF idleEnv 0 "missing").2.2 = Except.error "Not found" := by
  have h := C9_healthy_get_miss_flips_mode baseRF idleEnv 0 "missing" rfl rfl rfl
  exact ⟨h.1, h.2.2.2 rfl⟩

/-- Both branches of setToRedis leave the record stored in the memory
map. -/
theorem setToRedis_mem (rf : RF) (env : Env) (key : String) (c : Cache) :
    lookupKey (setToRedis rf env key c).1.mem key = some c := by
  by_cases hr2 : (setRedisAttempts env key (goTrimQuotes (jsonEncode c.data)) c.ttl rf.maxRetry).2 = true
  · simp [setToRedis, hr2, lookupKey_insertKey_self]
  · simp [setToRedis, hr2]
    exact (setToMemory_fields (changeToFallbackMode rf) env key c).1

/-- The record built by a non-panicking Set is in the memory map of the
resulting state, whatever tier the write went to. -/
theorem set_ok_mem (rf : RF) (env : Env) (now : Int) (key : String) (v : JsonValue)
    (ttl : Int) (rf1 : RF) (tr : List RemoteOp) (err : Option String)
    (h : Set rf env now key (some v) ttl = SetOutcome.ok rf1 tr err) :
    lookupKey rf1.mem key = some (mkItem now key v ttl) := by
  unfold Set at h
  cases hh : rf.isHealth <;> simp [hh] at h
  · obtain ⟨h1, h2, h3⟩ := h
    rw [← h1]
    exact (setToMemory_fields rf env key (mkItem now key v ttl)).1
  · obtain ⟨h1, h2, h3⟩ := h
    rw [← h1]
    exact setToRedis_mem rf env key (mkItem now key v ttl)

/-- setToMemory does not disturb memory entries of other keys. -/
theorem setToMemory_mem_other (rf : RF) (env : Env) (key : String) (item : Cache)
    (k : String) (h : key ≠ k) :
    lookupKey (setToMemory rf env key item).1.mem k = lookupKey rf.mem k := by
  unfold setToMemory writeToFile
  by_cases hq : rf.queue.length < rf.maxQueue
  · simp [hq, lookupKey_insertKey_ne rf.mem key item k h]
  · cases hd : env.diskOk <;> simp [hq, hd, lookupKey_insertKey_ne rf.mem key item k h]

/-- setToRedis does not disturb memory entries of other keys. -/
theorem setToRedis_mem_other (rf : RF) (env : Env) (key : String) (c : Cache)
    (k : String) (h : key ≠ k) :
    lookupKey (setToRedis rf env key c).1.mem k = lookupKey rf.mem k := by
  by_cases hr2 : (setRedisAttempts env key (goTrimQuotes (jsonEncode c.data)) c.ttl rf.maxRetry).2 = true
  · simp [setToRedis, hr2, lookupKey_insertKey_ne rf.mem key c k h]
  · simp [setToRedis, hr2]
    rw [setToMemory_mem_other (changeToFallbackMode rf) env key c k h,
        (changeToFallbackMode_fields rf).2.2.1]

/-- getFromMemory does not disturb memory entries of other keys. -/
theorem getFromMemory_mem_other (rf : RF) (now : Int) (key : String)
    (k : String) (h : key ≠ k) :
    lookupKey (getFromMemory rf now key).1.mem k = lookupKey rf.mem k := by
  unfold getFromMemory loadFromFile removeJSONFile
  cases hm : lookupKey rf.mem key with
  | none =>
    cases hd : lookupKey rf.disk key with
    | none => simp [hm, hd]
    | some item =>
      cases he : isExpired now item <;>
        simp [hm, hd, he, lookupKey_insertKey_ne rf.mem key item k h]
  | some item =>
    cases he : isExpired now item <;>
      simp [hm, he, lookupKey_eraseKey_ne rf.mem key k h]

/-- getFromRedis does not disturb memory entries of other keys. -/
theorem getFromRedis_mem_other (rf : RF) (env : Env) (now : Int) (key : String)
    (k : String) (h : key ≠ k) :
    lookupKey (getFromRedis rf env now key).1.mem k = lookupKey rf.mem k := by
  unfold getFromRedis removeJSONFile
  cases hm : lookupKey rf.mem key with
  | some item =>
    cases he : isExpired now item <;>
      simp [hm, he, lookupKey_eraseKey_ne rf.mem key k h]
  | none =>
    cases hr : (getRedisAttempts env key rf.maxRetry).2 with
    | some item => simp [hm, hr, lookupKey_insertKey_ne rf.mem key item k h]
    | none =>
      simp [hm, hr]
      rw [getFromMemory_mem_other (changeToFallbackMode rf) now key k h,
          (changeToFallbackMode_fields rf).2.2.1]

/-- One public operation addressed to a different key leaves the memory
entry of a key untouched. -/
theorem lookupKey_applyOp_other (env : Env) (rf : RF) (op : Op) (key : String)
    (hop : opKey op ≠ key) :
    lookupKey (applyOp env rf op).mem key = lookupKey rf.mem key := by
  cases op with
  | getOp k now =>
    have hk : k ≠ key := hop
    cases hh : rf.isHealth
    · rw [show applyOp env rf (Op.getOp k now) = (getFromMemory rf now k).1 by
        simp [applyOp, Get, hh]]
      exact getFromMemory_mem_other rf now k key hk
    · rw [show applyOp env rf (Op.getOp k now) = (getFromRedis rf env now k).1 by
        simp [applyOp, Get, hh]]
      exact getFromRedis_mem_other rf env now k key hk
  | setOp k v ttl now =>
    have hk : k ≠ key := hop
    cases v with
    | none => rfl
    | some w =>
      cases hh : rf.isHealth
      · rw [show applyOp env rf (Op.setOp k (some w) ttl now) =
            (setToMemory rf env k (mkItem now k w ttl)).1 by simp [applyOp, Set, hh]]
        exact setToMemory_mem_other rf env k (mkItem now k w ttl) key hk
      · rw [show applyOp env rf (Op.setOp k (some w) ttl now) =
            (setToRedis rf env k (mkItem now k w ttl)).1 by simp [applyOp, Set, hh]]
        exact setToRedis_mem_other rf env k (mkItem now k w ttl) key hk
  | delOp k =>
    have hk : k ≠ key := hop
    unfold applyOp Del removeJSONFile
    cases hh : rf.isHealth <;> cases hd : env.delOk <;>
      simp [hh, hd, lookupKey_eraseKey_ne rf.mem k key hk]

/-- A run of public operations that never addresses a key leaves its
memory entry untouched. -/
theorem lookupKey_runOps_other (env : Env) (rf : RF) (ops : List Op) (key : String)
    (hops : ∀ op ∈ ops, opKey op ≠ key) :
    lookupKey (runOps env rf ops).mem key = lookupKey rf.mem key := by
  induction ops generalizing rf with
  | nil => rfl
  | cons op rest ih =>
    rw [runOps, ih (applyOp env rf op) (fun o ho => hops o (List.mem_cons_of_mem op ho)),
        lookupKey_applyOp_other env rf op key (hops op (List.mem_cons_self op rest))]

/-- A Get whose key is in the memory map answers from it alone: the data
when the record is alive, Not found when it is expired — in both modes. -/
theorem get_mem_hit (rf : RF) (env : Env) (now : Int) (key : String) (item : Cache)
    (h : lookupKey rf.mem key = some item) :
    (Get rf env now key).2.2 =
      if isExpired now item then Except.error "Not found" else Except.ok item.data := by
  unfold Get getFromRedis getFromMemory
  cases hh : rf.isHealth <;> cases he : isExpired now item <;> simp [h, he]

/-- C1 amended: after Set(k, v, ttl) — through either tier, at either
health state — and any further operations on keys other than k (no
intervening operation on k at all: not only Delete and overwrite, but
also Get, since an intervening Get of k refreshes the remote TTL and a
later Get can then resurrect remote-decoded data past expiry), Get(k)
at time t returns v whenever t − tset ≤ ttl or ttl = 0, and Not found
whenever ttl > 0 and t − tset > ttl; the record is expired exactly when
its TTL is positive and now is past timestamp + TTL. -/
theorem C1_get_after_set (rf : RF) (env : Env) (tset t : Int) (key : String)
    (v : JsonValue) (ttl : Int) (rf1 : RF) (tr : List RemoteOp) (err : Option String)
    (ops : List Op)
    (hset : Set rf env tset key (some v) ttl = SetOutcome.ok rf1 tr err)
    (hops : ∀ op ∈ ops, opKey op ≠ key) :
    ((t - tset ≤ ttl ∨ ttl = 0) →
      (Get (runOps env rf1 ops) env t key).2.2 = Except.ok v) ∧
    (ttl > 0 ∧ t - tset > ttl →
      (Get (runOps env rf1 ops) env t key).2.2 = Except.error "Not found") := by
  have hmem1 := set_ok_mem rf env tset key v ttl rf1 tr err hset
  have hmem2 : lookupKey (runOps env rf1 ops).mem key = some (mkItem tset key v ttl) := by
    rw [lookupKey_runOps_other env rf1 ops key hops]
    exact hmem1
  have hg := get_mem_hit (runOps env rf1 ops) env t key (mkItem tset key v ttl) hmem2
  constructor
  · intro hcond
    have hlive : isExpired t (mkItem tset key v ttl) = false := by
      unfold isExpired mkItem
      rcases hcond with hc | hc
      · rcases lt_or_le 0 ttl with hp | hp
        · have hnp : ¬ ttl ≤ 0 := not_le.mpr hp
          simp [hp, hnp]
          omega
        · simp [not_lt.mpr hp]
      · simp [hc]
    rw [hg, hlive]
    simp [mkItem]
  · intro hcond
    have hdead : isExpired t (mkItem tset key v ttl) = true := by
      unfold isExpired mkItem
      have hp : 0 < ttl := hcond.1
      have hnp : ¬ ttl ≤ 0 := not_le.mpr hp
      simp [hp, hnp]
      omega
    rw [hg, hdead]
    simp

/-- Closed witness for the C1 theorem: a healthy Set of "v" with TTL 10
at time 0, no further operations, read back at time 5. -/
theorem C1_get_after_set_witness :
    ((5 : Int) - 0 ≤ 10 ∨ (10 : Int) = 0) ∧
    (Get (runOps idleEnv c1rf []) idleEnv 5 "k1").2.2 = Except.ok (JsonValue.str "v") := by
  have h := C1_get_after_set baseRF idleEnv 0 5 "k1" (JsonValue.str "v") 10 c1rf
      [RemoteOp.setOp "k1" "v" 10] none [] rfl (by intro op hop; cases hop)
  exact ⟨Or.inl (by norm_num), h.1 (Or.inl (by norm_num))⟩

/-- C1 counterexample: the claim excludes only an intervening Delete or
overwrite of k, yet an intervening Get of k breaks it. Trace, healthy
throughout: Set("k1", objV, 10) at time 0 stores the record and SETs the
trimmed object payload remotely. A live Get at time 5 returns objV and
fires the async refresh syncToRedis, a remote SET with the full TTL of
10 — on a real remote this pushes the expiry out to time 15. A Get at
time 12 observes the record expired and purges it from memory and disk,
returning Not found. The Get at time 13 — where t − tset = 13 > ttl =
10 > 0, so the claim demands Not found — misses memory, reaches the
remote, finds the payload still alive, and json.Unmarshal of the JSON
object yields the zero-valued Cache record, so the call returns its nil
data with no error: neither Not found nor v. -/
theorem C1_intervening_get_defeats_expiry :
    Set baseRF envC1 0 "k1" (some objV) 10 =
      SetOutcome.ok c1xrf0 [RemoteOp.setOp "k1" (goTrimQuotes (jsonEncode objV)) 10] none ∧
    (Get c1xrf0 envC1 5 "k1").2.2 = Except.ok objV ∧
    (Get c1xrf0 envC1 5 "k1").2.1 = [syncToRedis "k1" c1xItem] ∧
    (Get c1xrf0 envC1 5 "k1").1 = c1xrf0 ∧
    (Get c1xrf0 envC1 12 "k1").2.2 = Except.error "Not found" ∧
    (Get c1xrf0 envC1 12 "k1").1 = baseRF ∧
    ((13 : Int) - 0 > 10 ∧ (10 : Int) > 0) ∧
    (Get baseRF envC1 13 "k1").2.2 = Except.ok JsonValue.null ∧
    (Get baseRF envC1 13 "k1").2.2 ≠ Except.error "Not found" ∧
    (Get baseRF envC1 13 "k1").2.2 ≠ Except.ok objV := by
  have hval : (Get baseRF envC1 13 "k1").2.2 = Except.ok JsonValue.null := rfl
  refine ⟨rfl, rfl, rfl, rfl, rfl, rfl, by norm_num, hval, ?_, ?_⟩
  · rw [hval]
    intro h
    exact Except.noConfusion h
  · rw [hval]
    intro h
    injection h with h2
    exact JsonValue.noConfusion h2

/-- With a remote whose SET attempts succeed and at least one attempt
allowed, the retry loop stops after the first attempt. -/
theorem setRedisAttempts_ok (env : Env) (key payload : String) (ttl : Int)
    (h : env.setOk = true) (n : Nat) (hn : 1 ≤ n) :
    setRedisAttempts env key payload ttl n = ([RemoteOp.setOp key payload ttl], true) := by
  cases n with
  | zero => omega
  | succ m => simp [setRedisAttempts, h]

/-- dropQuotes never leaves a leading double quote. -/
theorem dropQuotes_head (cs : List Char) : (dropQuotes cs).head? ≠ some '"' := by
  induction cs with
  | nil => simp [dropQuotes]
  | cons c rest ih =>
    by_cases hc : c = '"'
    · simpa [dropQuotes, hc] using ih
    · simp [dropQuotes, hc]

/-- dropQuotes removes a prefix only: its result is empty or keeps the
last element. -/
theorem dropQuotes_getLast (cs : List Char) :
    dropQuotes cs = [] ∨ (dropQuotes cs).getLast? = cs.getLast? := by
  induction cs with
  | nil => exact Or.inl rfl
  | cons c rest ih =>
    by_cases hc : c = '"'
    · cases rest with
      | nil => exact Or.inl (by simp [dropQuotes, hc])
      | cons d ds =>
        rcases ih with h | h
        · exact Or.inl (by simpa [dropQuotes, hc] using h)
        · refine Or.inr ?_
          rw [show dropQuotes (c :: d :: ds) = dropQuotes (d :: ds) by simp [dropQuotes, hc], h]
          exact (List.getLast?_cons_cons).symm
    · refine Or.inr ?_
      simp [dropQuotes, hc]

/-- dropQuotes is the identity when there is no leading quote. -/
theorem dropQuotes_id_of_head (cs : List Char) (h : cs.head? ≠ some '"') :
    dropQuotes cs = cs := by
  cases cs with
  | nil => rfl
  | cons c rest =>
    have hc : c ≠ '"' := by simpa using h
    simp [dropQuotes, hc]

/-- The result of Go strings.Trim on the quote cutset neither starts nor
ends with a double quote. -/
theorem goTrimQuotes_ends (s : String) :
    (goTrimQuotes s).data.head? ≠ some '"' ∧
    (goTrimQuotes s).data.getLast? ≠ some '"' := by
  unfold goTrimQuotes
  constructor
  · show (dropQuotes (dropQuotes s.data).reverse).reverse.head? ≠ some '"'
    rw [List.head?_reverse]
    rcases dropQuotes_getLast (dropQuotes s.data).reverse with h | h
    · rw [h]
      simp
    · rw [h, List.getLast?_reverse]
      exact dropQuotes_head s.data
  · show (dropQuotes (dropQuotes s.data).reverse).reverse.getLast? ≠ some '"'
    rw [List.getLast?_reverse]
    exact dropQuotes_head (dropQuotes s.data).reverse

/-- Go strings.Trim on the quote cutset is the identity on a string with
no enclosing quote on either side. -/
theorem goTrimQuotes_id_of_ends (s : String)
    (h1 : s.data.head? ≠ some '"') (h2 : s.data.getLast? ≠ some '"') :
    goTrimQuotes s = s := by
  unfold goTrimQuotes
  rw [dropQuotes_id_of_head s.data h1]
  rw [dropQuotes_id_of_head s.data.reverse (by rw [List.head?_reverse]; exact h2)]
  rw [List.reverse_reverse]

/-- The character list of the JSON encoding of an object: an opening
brace, the members, a closing brace. -/
theorem jsonEncode_obj_data (kvs : List (String × JsonValue)) :
    (jsonEncode (JsonValue.obj kvs)).data =
      '\x7b' :: ((String.intercalate "," (jsonEncodeObj kvs)).data ++ ['\x7d']) := by
  show ("\x7b" ++ String.intercalate "," (jsonEncodeObj kvs) ++ "\x7d").data = _
  rw [String.data_append, String.data_append]
  simp

/-- The on-disk encoding of a record starts with an opening brace and
ends with a closing brace, never with a double quote. -/
theorem writeToFileContent_ends (c : Cache) :
    (writeToFileContent c).data.head? ≠ some '"' ∧
    (writeToFileContent c).data.getLast? ≠ some '"' := by
  unfold writeToFileContent
  rw [jsonEncode_obj_data]
  constructor
  · simp
  · rw [show '\x7b' :: ((String.intercalate "," (jsonEncodeObj _)).data ++ ['\x7d']) =
        ('\x7b' :: (String.intercalate "," (jsonEncodeObj _)).data) ++ ['\x7d'] from rfl,
      List.getLast?_concat]
    decide

/-- C3 counterexample: for the record whose data is the Go string hi"
(JSON encoding "hi\""), the remote payload produced by setToRedis is hi\
— Go strings.Trim removed one leading and two trailing quote characters —
while the claim mandates stripping exactly one enclosing pair, which
gives hi\. followed by a quote. The two differ, so the at-most-one-pair
description of the stripping is false. -/
theorem C3_trim_strips_every_end_quote :
    jsonEncode c3rec.data = "\"hi\\\"\"" ∧
    goTrimQuotes (jsonEncode c3rec.data) = "hi\\" ∧
    stripOnePairSpec (jsonEncode c3rec.data) = "hi\\\"" ∧
    (setToRedis baseRF idleEnv "k3" c3rec).2.1 = [RemoteOp.setOp "k3" "hi\\" 0] ∧
    goTrimQuotes (jsonEncode c3rec.data) ≠ stripOnePairSpec (jsonEncode c3rec.data) := by
  refine ⟨rfl, rfl, rfl, rfl, by decide⟩

/-- C3 amended: on every remote SET — the healthy Set path, the async
refresh syncToRedis, and the recovery pipeline use the same expression —
the payload is the JSON encoding of the data field with ALL leading and
trailing double-quote characters removed (Go strings.Trim), so the
trimmed payload never starts or ends with a double quote; the on-disk
encoding of the record is the untrimmed JSON of the whole record, on
which the trim would not even act because it is brace-delimited. -/
theorem C3_amended_trim_all_end_quotes (rf : RF) (env : Env) (key : String) (c : Cache)
    (hok : env.setOk = true) (hr : 1 ≤ rf.maxRetry) :
    (setToRedis rf env key c).2.1 =
      [RemoteOp.setOp key (goTrimQuotes (jsonEncode c.data)) c.ttl] ∧
    syncToRedis key c = RemoteOp.setOp key (goTrimQuotes (jsonEncode c.data)) c.ttl ∧
    (goTrimQuotes (jsonEncode c.data)).data.head? ≠ some '"' ∧
    (goTrimQuotes (jsonEncode c.data)).data.getLast? ≠ some '"' ∧
    goTrimQuotes (writeToFileContent c) = writeToFileContent c := by
  have ha := setRedisAttempts_ok env key (goTrimQuotes (jsonEncode c.data)) c.ttl hok rf.maxRetry hr
  refine ⟨by simp [setToRedis, ha], rfl, (goTrimQuotes_ends (jsonEncode c.data)).1,
    (goTrimQuotes_ends (jsonEncode c.data)).2, ?_⟩
  exact goTrimQuotes_id_of_ends (writeToFileContent c)
    (writeToFileContent_ends c).1 (writeToFileContent_ends c).2

/-- Closed witness for the amended C3 theorem at the concrete record with
a quote inside its data. -/
theorem C3_amended_trim_all_end_quotes_witness :
    (setToRedis baseRF idleEnv "kw" c3rec).2.1 =
      [RemoteOp.setOp "kw" (goTrimQuotes (jsonEncode c3rec.data)) c3rec.ttl] ∧
    goTrimQuotes (writeToFileContent c3rec) = writeToFileContent c3rec := by
  have h := C3_amended_trim_all_end_quotes baseRF idleEnv "kw" c3rec rfl (by decide)
  exact ⟨h.1, h.2.2.2.2⟩

end RedisFallback
